import Mathlib

/-!
Verification development for the DecentraFile core: a shallow embedding of
the crypto envelope module (src/crypto/crypto.js), the FileRegistry contract
(contracts/FileRegistry.sol), the CIDMap persistence layer and the
upload/download orchestrator (the blockchain interaction module), together
with theorems settling the specified properties.

Bytes are modelled as natural numbers (a JS Buffer is a list of bytes, each
below 256); hex strings as lists of characters; JS exceptions as
`Except String`; Solidity reverts as `Except` errors that roll back all
state changes and event emissions of the call.
-/

namespace DecentraFile

/-! ## Bytes and hex encoding

Node's Buffer.toString with base-16 output produces lowercase hex digit
pairs; Buffer.from with base-16 input consumes hex digit pairs and stops at
the first character that is not a hex digit (truncating a trailing odd
character).
-/

/-- Predicate for a list of bytes: each element fits in one byte. -/
def BytesWF (bs : List Nat) : Prop := ∀ b ∈ bs, b < 256

instance (bs : List Nat) : Decidable (BytesWF bs) := by
  unfold BytesWF
  infer_instance

/-- Lowercase hex digit for a value below 16 (as Node produces). -/
def hexDigitChar (n : Nat) : Char :=
  if n < 10 then Char.ofNat (48 + n) else Char.ofNat (87 + n)

/-- Hex encoding of one byte: high nibble then low nibble. -/
def hexEncodeByte (b : Nat) : List Char :=
  [hexDigitChar (b / 16), hexDigitChar (b % 16)]

/-- Hex encoding of a byte list, as Buffer.toString with base-16 output. -/
def hexEncode (bs : List Nat) : List Char :=
  (bs.map hexEncodeByte).flatten

/-- Matcher for the character class of the validation regex in decryptFile:
digits, lowercase a-f, uppercase A-F. -/
def isHexDigitCh (c : Char) : Bool :=
  (48 ≤ c.toNat && c.toNat ≤ 57) ||
  (97 ≤ c.toNat && c.toNat ≤ 102) ||
  (65 ≤ c.toNat && c.toNat ≤ 70)

/-- Embedding of the anchored one-or-more hex-digit regex test used by
decryptFile on iv and authTag. -/
def isHexString (s : List Char) : Bool :=
  !s.isEmpty && s.all isHexDigitCh

/-- Numeric value of a hex digit character (0 on non-hex input, unreachable
after validation). -/
def hexDigitVal (c : Char) : Nat :=
  if 48 ≤ c.toNat && c.toNat ≤ 57 then c.toNat - 48
  else if 97 ≤ c.toNat && c.toNat ≤ 102 then c.toNat - 87
  else if 65 ≤ c.toNat && c.toNat ≤ 70 then c.toNat - 55
  else 0

/-- Hex decoding as Buffer.from with base-16 input: consume digit pairs,
stop at the first invalid character or trailing odd character. -/
def hexDecode : List Char → List Nat
  | c1 :: c2 :: rest =>
      if isHexDigitCh c1 && isHexDigitCh c2 then
        (16 * hexDigitVal c1 + hexDigitVal c2) :: hexDecode rest
      else []
  | _ => []

theorem hexEncode_length (bs : List Nat) : (hexEncode bs).length = 2 * bs.length := by
  induction bs with
  | nil => rfl
  | cons b bs ih =>
      simp only [hexEncode, List.map_cons, List.flatten_cons] at *
      simp only [List.length_append, ih]
      simp [hexEncodeByte]
      omega

theorem hexDigit_spec (n : Nat) (h : n < 16) :
    isHexDigitCh (hexDigitChar n) = true ∧ hexDigitVal (hexDigitChar n) = n := by
  interval_cases n <;> exact ⟨by decide, by decide⟩

theorem hexEncode_all_hex (bs : List Nat) (h : BytesWF bs) :
    (hexEncode bs).all isHexDigitCh = true := by
  induction bs with
  | nil => rfl
  | cons b bs ih =>
      have hb : b < 256 := h b (List.mem_cons_self b bs)
      have hhi : b / 16 < 16 := Nat.div_lt_of_lt_mul hb
      have hlo : b % 16 < 16 := Nat.mod_lt _ (by omega)
      have ih2 := ih (fun x hx => h x (List.mem_cons_of_mem b hx))
      simp only [hexEncode, List.map_cons, List.flatten_cons, List.all_append] at *
      simp [hexEncodeByte, (hexDigit_spec _ hhi).1, (hexDigit_spec _ hlo).1, ih2]

theorem hexDecode_hexEncode (bs : List Nat) (h : BytesWF bs) :
    hexDecode (hexEncode bs) = bs := by
  induction bs with
  | nil => rfl
  | cons b bs ih =>
      have hb : b < 256 := h b (List.mem_cons_self b bs)
      have hhi : b / 16 < 16 := Nat.div_lt_of_lt_mul hb
      have hlo : b % 16 < 16 := Nat.mod_lt _ (by omega)
      have ih2 := ih (fun x hx => h x (List.mem_cons_of_mem b hx))
      simp only [hexEncode, List.map_cons, List.flatten_cons, hexEncodeByte,
        List.cons_append, List.nil_append]
      show hexDecode (hexDigitChar (b / 16) :: hexDigitChar (b % 16) :: _) = _
      rw [hexDecode]
      simp only [(hexDigit_spec _ hhi).1, (hexDigit_spec _ hlo).1,
        (hexDigit_spec _ hhi).2, (hexDigit_spec _ hlo).2, Bool.and_self, if_pos]
      rw [show (hexEncode bs = (bs.map hexEncodeByte).flatten) from rfl] at ih2
      simp [ih2, Nat.div_add_mod]

theorem hexEncode_ne_nil (bs : List Nat) (h : bs ≠ []) : hexEncode bs ≠ [] := by
  cases bs with
  | nil => exact absurd rfl h
  | cons b bs => simp [hexEncode, hexEncodeByte]

/-! ## Abstract model of the Node aes-256-gcm primitive

The cipher itself lives in the Node standard library, outside this
repository; the envelope module is proved relative to an abstract
authenticated cipher carrying the documented properties of GCM: ciphertext
as long as the plaintext, a 16-byte tag, and decryption inverting
encryption under the same key, iv and tag.  `enc key iv plaintext` returns
the ciphertext/tag pair; `dec key iv tag ciphertext` returns the plaintext
or rejects.
-/

structure AeadModel where
  enc : List Nat → List Nat → List Nat → List Nat × List Nat
  dec : List Nat → List Nat → List Nat → List Nat → Option (List Nat)
  enc_ct_length : ∀ k iv pt, (enc k iv pt).1.length = pt.length
  enc_tag_length : ∀ k iv pt, (enc k iv pt).2.length = 16
  enc_tag_bytes : ∀ k iv pt, BytesWF (enc k iv pt).2
  dec_enc : ∀ k iv pt, dec k iv (enc k iv pt).2 (enc k iv pt).1 = some pt

/-- Degenerate instantiation of the cipher interface, used to evaluate the
envelope functions on concrete inputs. -/
def mockAead : AeadModel where
  enc := fun _ _ pt => (pt, List.replicate 16 0)
  dec := fun _ _ tag ct => if tag = List.replicate 16 0 then some ct else none
  enc_ct_length := fun _ _ _ => rfl
  enc_tag_length := fun _ _ _ => by simp
  enc_tag_bytes := fun _ _ _ => by intro b hb; simp at hb; omega
  dec_enc := fun _ _ _ => by simp

/-! ## Envelope module: encryptFile / decryptFile

Translated from src/crypto/crypto.js.  The fresh random iv drawn inside
encryptFile is passed as an explicit argument (the source draws 16 random
bytes per call).  Buffer-type checks of the source are carried by the types
of the embedding.  Error strings are the exact messages thrown by the
source.
-/

/-- Embedding of encryptFile: validates the key length and non-emptiness,
encrypts, and returns the ciphertext together with hex-encoded iv and
authentication tag. -/
def encryptFile (A : AeadModel) (fileBuffer symmetricKey iv : List Nat) :
    Except String (List Nat × List Char × List Char) :=
  if symmetricKey.length ≠ 32 then
    .error "Symmetric key must be a 32-byte Buffer"
  else if fileBuffer.length = 0 then
    .error "Cannot encrypt empty file"
  else
    let p := A.enc symmetricKey iv fileBuffer
    .ok (p.1, hexEncode iv, hexEncode p.2)

/-- Body of the try block of decryptFile: length checks on the hex iv and
authTag, decode, then authenticated decryption; a GCM rejection surfaces as
the Node error message containing the words Unsupported state. -/
def decryptBody (A : AeadModel) (ciphertext symmetricKey : List Nat)
    (iv authTag : List Char) : Except String (List Nat) :=
  if iv.length ≠ 32 then
    .error "IV must be 32 hex characters (16 bytes)"
  else
    let ivBuffer := hexDecode iv
    if ivBuffer.length ≠ 16 then .error "IV must be 16 bytes"
    else if authTag.length ≠ 32 then
      .error "Auth tag must be 32 hex characters (16 bytes)"
    else
      let authTagBuffer := hexDecode authTag
      if authTagBuffer.length ≠ 16 then .error "Auth tag must be 16 bytes"
      else
        match A.dec symmetricKey ivBuffer authTagBuffer ciphertext with
        | some plaintext => .ok plaintext
        | none => .error "Unsupported state or unable to authenticate data"

/-- Scan for an occurrence of the first list inside the second. -/
def hasSubList (needle : List Char) : List Char → Bool
  | [] => needle.isEmpty
  | c :: rest => needle.isPrefixOf (c :: rest) || hasSubList needle rest

/-- Substring test, as the JS String.includes call. -/
def containsSub (s sub : String) : Bool :=
  hasSubList sub.toList s.toList

/-- The catch clause of decryptFile: messages mentioning Unsupported state
or bad decrypt collapse to the uniform tamper message; any other caught
message is re-thrown with a Decryption failed prefix. -/
def decryptCatchMsg (msg : String) : String :=
  if containsSub msg "Unsupported state" || containsSub msg "bad decrypt" then
    "Decryption failed: Invalid key, corrupted data, or tampering detected"
  else
    "Decryption failed: " ++ msg

/-- Embedding of decryptFile: input validation (key length, hex shape of iv
and authTag, non-empty ciphertext) followed by the try block under the
catch clause. -/
def decryptFile (A : AeadModel) (ciphertext symmetricKey : List Nat)
    (iv authTag : List Char) : Except String (List Nat) :=
  if symmetricKey.length ≠ 32 then
    .error "Symmetric key must be a 32-byte Buffer"
  else if isHexString iv = false then
    .error "IV must be a hex string"
  else if isHexString authTag = false then
    .error "Auth tag must be a hex string"
  else if ciphertext.length = 0 then
    .error "Cannot decrypt empty ciphertext"
  else
    match decryptBody A ciphertext symmetricKey iv authTag with
    | .ok plaintext => .ok plaintext
    | .error m => .error (decryptCatchMsg m)

/-! ## Claims about the envelope module -/

/-- Claim C1.  For every non-empty plaintext buffer and every 32-byte key,
decrypting the output of sealing - decryptFile applied to the ciphertext,
key, iv and authTag returned by encryptFile - returns exactly the original
content. -/
theorem C1_seal_open_roundtrip (A : AeadModel) (content key iv : List Nat)
    (hc : content ≠ []) (hk : key.length = 32) (hiv : iv.length = 16)
    (hivb : BytesWF iv) :
    ∃ ct ivh tagh,
      encryptFile A content key iv = .ok (ct, ivh, tagh) ∧
      decryptFile A ct key ivh tagh = .ok content := by
  refine ⟨(A.enc key iv content).1, hexEncode iv, hexEncode (A.enc key iv content).2, ?_, ?_⟩
  · have hcl : content.length ≠ 0 := by
      intro h
      exact hc (List.length_eq_zero.mp h)
    simp [encryptFile, hk, hcl]
  · have htauglen : (A.enc key iv content).2.length = 16 := A.enc_tag_length key iv content
    have htagwf : BytesWF (A.enc key iv content).2 := A.enc_tag_bytes key iv content
    have hivne : iv ≠ [] := by
      intro h
      rw [h] at hiv
      simp at hiv
    have htagne : (A.enc key iv content).2 ≠ [] := by
      intro h
      rw [h] at htauglen
      simp at htauglen
    have hivhex : isHexString (hexEncode iv) = true := by
      simp [isHexString, List.isEmpty_iff, hexEncode_ne_nil iv hivne,
        hexEncode_all_hex iv hivb]
    have htaghex : isHexString (hexEncode (A.enc key iv content).2) = true := by
      simp [isHexString, List.isEmpty_iff, hexEncode_ne_nil _ htagne,
        hexEncode_all_hex _ htagwf]
    have hctlen : (A.enc key iv content).1.length ≠ 0 := by
      rw [A.enc_ct_length key iv content]
      intro h
      exact hc (List.length_eq_zero.mp h)
    have hivlen : (hexEncode iv).length = 32 := by
      rw [hexEncode_length, hiv]
    have htaglen2 : (hexEncode (A.enc key iv content).2).length = 32 := by
      rw [hexEncode_length, htauglen]
    have hivdec : hexDecode (hexEncode iv) = iv := hexDecode_hexEncode iv hivb
    have htagdec : hexDecode (hexEncode (A.enc key iv content).2) = (A.enc key iv content).2 :=
      hexDecode_hexEncode _ htagwf
    simp [decryptFile, decryptBody, hk, hivhex, htaghex, hctlen, hivlen, htaglen2,
      hivdec, htagdec, hiv, htauglen, A.dec_enc key iv content]

/-- Witness for C1 at a concrete input: one-byte content, all-zero key and
iv, under the concrete cipher instantiation. -/
theorem C1_seal_open_roundtrip_witness :
    ∃ ct ivh tagh,
      encryptFile mockAead [1] (List.replicate 32 0) (List.replicate 16 0) = .ok (ct, ivh, tagh) ∧
      decryptFile mockAead ct (List.replicate 32 0) ivh tagh = .ok [1] :=
  C1_seal_open_roundtrip mockAead [1] (List.replicate 32 0) (List.replicate 16 0)
    (by decide) (by decide) (by decide) (by decide)

/-- Hex string of 32 zero digits: the encoding of the all-zero 16-byte iv
and of the tag the concrete cipher instantiation produces. -/
def zeroHex32 : List Char := hexEncode (List.replicate 16 (0 : Nat))

/-- Counterexample to claim C4 as stated: two single-character mutations of
a valid sealed envelope make decryptFile fail with two different errors -
mutating the iv to a non-hex character yields the iv validation error,
while mutating the authTag yields the uniform tamper message - so the
failing error is not identical regardless of the cause. -/
theorem C4_counterexample :
    decryptFile mockAead [1] (List.replicate 32 0) ('z' :: zeroHex32.tail) zeroHex32
      = .error "IV must be a hex string" ∧
    decryptFile mockAead [1] (List.replicate 32 0) zeroHex32 ('1' :: zeroHex32.tail)
      = .error "Decryption failed: Invalid key, corrupted data, or tampering detected" ∧
    ("IV must be a hex string" : String)
      ≠ "Decryption failed: Invalid key, corrupted data, or tampering detected" := by
  refine ⟨rfl, rfl, by decide⟩

/-- Claim C4, amended.  For inputs that pass the public input validation of
decryptFile (32-byte key, hex iv and authTag of 32 characters decoding to
16 bytes, non-empty ciphertext), every failure of the authenticated
decryption core produces the single uniform DecryptionFailed error;
validation failures, by contrast, carry their own distinct messages. -/
theorem C4_uniform_decryption_error (A : AeadModel) (ct key : List Nat)
    (ivh tagh : List Char)
    (hk : key.length = 32)
    (hiv : isHexString ivh = true) (hivlen : ivh.length = 32)
    (hivdec : (hexDecode ivh).length = 16)
    (htag : isHexString tagh = true) (htaglen : tagh.length = 32)
    (htagdec : (hexDecode tagh).length = 16)
    (hct : ct ≠ [])
    (hcore : A.dec key (hexDecode ivh) (hexDecode tagh) ct = none) :
    decryptFile A ct key ivh tagh
      = .error "Decryption failed: Invalid key, corrupted data, or tampering detected" := by
  have hctlen : ct.length ≠ 0 := by
    intro h
    exact hct (List.length_eq_zero.mp h)
  simp [decryptFile, decryptBody, hk, hiv, htag, hctlen, hivlen, hivdec, htaglen,
    htagdec, hcore]
  decide

/-- Witness for the amended C4 at a concrete input: a one-character
mutation of the authTag of a valid envelope is rejected with exactly the
uniform message. -/
theorem C4_uniform_decryption_error_witness :
    decryptFile mockAead [1] (List.replicate 32 0) zeroHex32 ('1' :: zeroHex32.tail)
      = .error "Decryption failed: Invalid key, corrupted data, or tampering detected" :=
  C4_uniform_decryption_error mockAead [1] (List.replicate 32 0) zeroHex32
    ('1' :: zeroHex32.tail) (by decide) (by decide) (by decide) (by decide)
    (by decide) (by decide) (by decide) (by decide) (by decide)

/-! ## FileRegistry contract

Translated from contracts/FileRegistry.sol.  A bytes32 value is a natural
number (zero is the zero hash), an address a natural number (zero is the
null address), and the two storage mappings are association lists with the
Solidity default values on absent keys.  A revert aborts the call and rolls
back every storage write and every event emission of the call frame, so a
reverting call returns only its error.
-/

structure FileMetadata where
  fileHash : Nat
  encryptedKey : List Nat
  owner : Nat
  timestamp : Nat
deriving DecidableEq

structure RegState where
  files : List (Nat × FileMetadata)
  userFiles : List (Nat × List Nat)
deriving DecidableEq

inductive RegError where
  | fileAlreadyExists (fileHash : Nat)
  | fileNotFound (fileHash : Nat)
  | invalidFileHash
  | invalidEncryptedKey
  | encryptedKeyTooLarge (size maxSize : Nat)
  | unauthorizedAccess
  | maxFilesPerUserExceeded (currentCount maxCount : Nat)
deriving DecidableEq

inductive RegEvent where
  | fileUploaded (fileHash owner timestamp : Nat)
  | fileDownloaded (fileHash recipient : Nat)
  | fileAccessDenied (fileHash requester : Nat)
deriving DecidableEq

def MAX_ENCRYPTED_KEY_SIZE_SOL : Nat := 1024

def MAX_FILES_PER_USER : Nat := 1000

/-- Mapping update on an association list. -/
def setAssoc {β : Type} (m : List (Nat × β)) (k : Nat) (v : β) : List (Nat × β) :=
  match m with
  | [] => [(k, v)]
  | (k2, v2) :: rest => if k2 = k then (k, v) :: rest else (k2, v2) :: setAssoc rest k v

/-- Read of the files mapping with the Solidity zero default. -/
def RegState.fileAt (s : RegState) (h : Nat) : FileMetadata :=
  (s.files.lookup h).getD ⟨0, [], 0, 0⟩

/-- Read of the userFiles mapping with the Solidity empty default. -/
def RegState.userFilesAt (s : RegState) (a : Nat) : List Nat :=
  (s.userFiles.lookup a).getD []

/-- Embedding of the fileExists view: a record exists when its stored owner
is a non-zero address. -/
def RegState.fileExists (s : RegState) (h : Nat) : Bool :=
  (s.fileAt h).owner != 0

/-- Embedding of uploadFile.  The source stores the record before the
per-user quota check; a quota revert therefore rolls that store back, which
the Except result models by carrying no state on error. -/
def uploadFile (s : RegState) (fileHash : Nat) (encryptedKey : List Nat)
    (sender timestamp : Nat) : Except RegError (RegState × List RegEvent) :=
  if fileHash = 0 then .error .invalidFileHash
  else if encryptedKey.length = 0 then .error .invalidEncryptedKey
  else if encryptedKey.length > MAX_ENCRYPTED_KEY_SIZE_SOL then
    .error (.encryptedKeyTooLarge encryptedKey.length MAX_ENCRYPTED_KEY_SIZE_SOL)
  else if s.fileExists fileHash then .error (.fileAlreadyExists fileHash)
  else
    let files2 := setAssoc s.files fileHash ⟨fileHash, encryptedKey, sender, timestamp⟩
    let currentFileCount := (s.userFilesAt sender).length
    if currentFileCount ≥ MAX_FILES_PER_USER then
      .error (.maxFilesPerUserExceeded currentFileCount MAX_FILES_PER_USER)
    else
      .ok (⟨files2, setAssoc s.userFiles sender (s.userFilesAt sender ++ [fileHash])⟩,
        [.fileUploaded fileHash sender timestamp])

/-- Post-state of an uploadFile call: a revert leaves the storage as it
was. -/
def applyUploadFile (s : RegState) (fileHash : Nat) (encryptedKey : List Nat)
    (sender timestamp : Nat) : RegState :=
  match uploadFile s fileHash encryptedKey sender timestamp with
  | .ok p => p.1
  | .error _ => s

/-- Embedding of the downloadFile view: the unauthenticated read path. -/
def downloadFile (s : RegState) (fileHash : Nat) : Except RegError (List Nat) :=
  if s.fileExists fileHash = false then .error (.fileNotFound fileHash)
  else .ok (s.fileAt fileHash).encryptedKey

/-- Embedding of retrieveFile.  On the unauthorized branch the source emits
FileAccessDenied and then reverts; the revert rolls the emission back with
the rest of the call frame, so the error carries no event. -/
def retrieveFile (s : RegState) (fileHash sender : Nat) :
    Except RegError (List Nat × List RegEvent) :=
  if s.fileExists fileHash = false then .error (.fileNotFound fileHash)
  else if (s.fileAt fileHash).owner ≠ sender then .error .unauthorizedAccess
  else .ok ((s.fileAt fileHash).encryptedKey, [.fileDownloaded fileHash sender])

/-- Embedding of the getUserFiles view. -/
def getUserFiles (s : RegState) (user : Nat) : List Nat :=
  if user = 0 then [] else s.userFilesAt user

/-- Events observable from outside a call: those of a successful call; a
reverted call leaves no log. -/
def observableEvents {α : Type} (r : Except RegError (α × List RegEvent)) : List RegEvent :=
  match r with
  | .ok p => p.2
  | .error _ => []

/-- Registry states reachable from deployment by uploadFile calls. -/
inductive Reachable : RegState → Prop where
  | init : Reachable ⟨[], []⟩
  | step : ∀ s fileHash key sender ts s2 evs, Reachable s →
      uploadFile s fileHash key sender ts = .ok (s2, evs) → Reachable s2

theorem lookup_setAssoc {β : Type} (m : List (Nat × β)) (k : Nat) (v : β) (k2 : Nat) :
    (setAssoc m k v).lookup k2 = if k2 = k then some v else m.lookup k2 := by
  induction m with
  | nil =>
      by_cases h : k2 = k
      · simp [setAssoc, List.lookup, h]
      · have hb : (k2 == k) = false := beq_eq_false_iff_ne.mpr h
        simp [setAssoc, List.lookup, hb, h]
  | cons p rest ih =>
      obtain ⟨pk, pv⟩ := p
      by_cases hpk : pk = k
      · subst hpk
        by_cases h : k2 = pk
        · simp [setAssoc, List.lookup, h]
        · have hb : (k2 == pk) = false := beq_eq_false_iff_ne.mpr h
          simp [setAssoc, List.lookup, hb, h]
      · by_cases h : k2 = pk
        · subst h
          have hk : k2 ≠ k := fun hh => hpk hh
          simp [setAssoc, hpk, List.lookup, hk]
        · have hb : (k2 == pk) = false := beq_eq_false_iff_ne.mpr h
          simp [setAssoc, hpk, List.lookup, hb, ih]

theorem userFilesAt_set (s : RegState) (files2 : List (Nat × FileMetadata))
    (k : Nat) (v : List Nat) (k2 : Nat) :
    RegState.userFilesAt ⟨files2, setAssoc s.userFiles k v⟩ k2
      = if k2 = k then v else s.userFilesAt k2 := by
  unfold RegState.userFilesAt
  simp only [lookup_setAssoc]
  by_cases h : k2 = k <;> simp [h]

/-- Characterization of a successful uploadFile call: the sender was below
quota and only the sender's index grew, by exactly the new fingerprint. -/
theorem uploadFile_ok_userFiles (s : RegState) (F : Nat) (blob : List Nat)
    (sender ts : Nat) (s2 : RegState) (evs : List RegEvent)
    (h : uploadFile s F blob sender ts = .ok (s2, evs)) :
    (s.userFilesAt sender).length < MAX_FILES_PER_USER ∧
    ∀ o, s2.userFilesAt o
      = if o = sender then s.userFilesAt sender ++ [F] else s.userFilesAt o := by
  simp only [uploadFile] at h
  split_ifs at h with h1 h2 h3 h4 h5
  injection h with h
  injection h with hstate hev
  subst hstate
  refine ⟨by omega, ?_⟩
  intro o
  exact userFilesAt_set s _ sender _ o

/-- Quota invariant over reachable registry states. -/
theorem reachable_quota (s : RegState) (hs : Reachable s) :
    ∀ o, (s.userFilesAt o).length ≤ MAX_FILES_PER_USER := by
  induction hs with
  | init => intro o; simp [RegState.userFilesAt, List.lookup]
  | step s F key sender ts s2 evs _ hok ih =>
      intro o
      obtain ⟨hlt, hchar⟩ := uploadFile_ok_userFiles s F key sender ts s2 evs hok
      rw [hchar o]
      by_cases h : o = sender
      · simp [h]
        omega
      · simp [h]
        exact ih o

/-! ## Claims about the registry -/

/-- Registry state holding one record: fingerprint 5, blob with one byte,
owner 7, timestamp 1, with the owner index tracking it. -/
def regDemoState : RegState := ⟨[(5, ⟨5, [1], 7, 1⟩)], [(7, [5])]⟩

/-- Counterexample to claim C2 as stated: with a record registered at
fingerprint 5, a resubmission carrying an empty blob fails with
InvalidEncryptedKey - the input validation runs before the existence check -
not with AlreadyExists as the claim asserts for every blob. -/
theorem C2_counterexample :
    regDemoState.fileExists 5 = true ∧
    uploadFile regDemoState 5 [] 7 2 = .error .invalidEncryptedKey ∧
    RegError.invalidEncryptedKey ≠ RegError.fileAlreadyExists 5 :=
  ⟨by decide, rfl, by decide⟩

/-- Claim C2, amended.  For every fingerprint with an existing record,
every subsequent uploadFile call fails - with AlreadyExists whenever the
blob has valid length (1 to 1024 bytes), and with the corresponding
validation error otherwise - and in all cases the revert leaves the
existing record and every owner index unchanged: no silent overwrite. -/
theorem C2_no_overwrite (s : RegState) (F : Nat) (blob : List Nat) (owner ts : Nat)
    (hF : F ≠ 0) (hex : s.fileExists F = true) :
    (∃ e, uploadFile s F blob owner ts = .error e) ∧
    applyUploadFile s F blob owner ts = s ∧
    (1 ≤ blob.length → blob.length ≤ 1024 →
      uploadFile s F blob owner ts = .error (.fileAlreadyExists F)) := by
  have happ : ∀ e, uploadFile s F blob owner ts = .error e →
      applyUploadFile s F blob owner ts = s := by
    intro e he
    simp [applyUploadFile, he]
  by_cases h0 : blob.length = 0
  · have herr : uploadFile s F blob owner ts = .error .invalidEncryptedKey := by
      simp [uploadFile, hF, h0]
    exact ⟨⟨_, herr⟩, happ _ herr, fun h1 _ => absurd h1 (by omega)⟩
  · by_cases hbig : blob.length > 1024
    · have herr : uploadFile s F blob owner ts
          = .error (.encryptedKeyTooLarge blob.length MAX_ENCRYPTED_KEY_SIZE_SOL) := by
        simp [uploadFile, hF, h0, MAX_ENCRYPTED_KEY_SIZE_SOL, hbig]
      exact ⟨⟨_, herr⟩, happ _ herr, fun _ h2 => absurd h2 (by omega)⟩
    · have herr : uploadFile s F blob owner ts = .error (.fileAlreadyExists F) := by
        simp [uploadFile, hF, h0, MAX_ENCRYPTED_KEY_SIZE_SOL, hbig, hex]
      exact ⟨⟨_, herr⟩, happ _ herr, fun _ _ => herr⟩

/-- Witness for the amended C2 at a concrete input: resubmitting the
identical one-byte blob for fingerprint 5 under the original owner fails
AlreadyExists. -/
theorem C2_no_overwrite_witness :
    uploadFile regDemoState 5 [1] 7 2 = .error (.fileAlreadyExists 5) :=
  (C2_no_overwrite regDemoState 5 [1] 7 2 (by decide) (by decide)).2.2
    (by decide) (by decide)

/-- Claim C6.  In every reachable registry state no owner index exceeds
MAX_FILES_PER_USER entries, and an otherwise valid upload by an owner whose
index already holds MAX_FILES_PER_USER entries reverts QuotaExceeded,
adding nothing. -/
theorem C6_owner_quota (s : RegState) :
    (Reachable s → ∀ o, (s.userFilesAt o).length ≤ MAX_FILES_PER_USER) ∧
    (∀ o F blob ts, (s.userFilesAt o).length = MAX_FILES_PER_USER → F ≠ 0 →
      1 ≤ blob.length → blob.length ≤ 1024 → s.fileExists F = false →
      uploadFile s F blob o ts
        = .error (.maxFilesPerUserExceeded MAX_FILES_PER_USER MAX_FILES_PER_USER) ∧
      applyUploadFile s F blob o ts = s) := by
  constructor
  · exact fun hs => reachable_quota s hs
  · intro o F blob ts hcount hF h1 h2 hnex
    have h0 : ¬ blob.length = 0 := by omega
    have hbig : ¬ blob.length > MAX_ENCRYPTED_KEY_SIZE_SOL := by
      simp [MAX_ENCRYPTED_KEY_SIZE_SOL]
      omega
    have herr : uploadFile s F blob o ts
        = .error (.maxFilesPerUserExceeded MAX_FILES_PER_USER MAX_FILES_PER_USER) := by
      simp [uploadFile, hF, h0, hbig, hnex, hcount]
    exact ⟨herr, by simp [applyUploadFile, herr]⟩

/-- Registry state whose owner 7 already holds 1000 index entries. -/
def quotaDemoState : RegState := ⟨[], [(7, List.range 1000)]⟩

/-- Witness for C6 at a concrete input: the next otherwise valid upload by
the full owner reverts QuotaExceeded and changes nothing. -/
theorem C6_owner_quota_witness :
    uploadFile quotaDemoState 5 [1] 7 0
      = .error (.maxFilesPerUserExceeded MAX_FILES_PER_USER MAX_FILES_PER_USER) ∧
    applyUploadFile quotaDemoState 5 [1] 7 0 = quotaDemoState :=
  (C6_owner_quota quotaDemoState).2 7 5 [1] 0
    (by simp [quotaDemoState, RegState.userFilesAt, List.lookup, MAX_FILES_PER_USER])
    (by decide) (by decide) (by decide) (by decide)

/-- Counterexample to claim C9 as stated: a non-owner call of retrieveFile
on a registered fingerprint does fail Unauthorized, but no AccessDenied
notification is observable - the emit precedes the revert, and the revert
rolls the call frame, its storage writes and its event log back. -/
theorem C9_counterexample :
    regDemoState.fileExists 5 = true ∧
    (regDemoState.fileAt 5).owner ≠ 8 ∧
    retrieveFile regDemoState 5 8 = .error .unauthorizedAccess ∧
    RegEvent.fileAccessDenied 5 8 ∉ observableEvents (retrieveFile regDemoState 5 8) := by
  refine ⟨by decide, by decide, rfl, by decide⟩

/-- Claim C9, amended.  retrieveFile returns the stored blob and signals a
Retrieved notification exactly when the caller is the record owner; any
other caller fails Unauthorized with no observable notification (the
AccessDenied emission is rolled back by the revert); an unregistered
fingerprint fails NotFound. -/
theorem C9_retrieve_access_control (s : RegState) (F caller : Nat) :
    (s.fileExists F = false → retrieveFile s F caller = .error (.fileNotFound F)) ∧
    (s.fileExists F = true → (s.fileAt F).owner = caller →
      retrieveFile s F caller
        = .ok ((s.fileAt F).encryptedKey, [.fileDownloaded F caller])) ∧
    (s.fileExists F = true → (s.fileAt F).owner ≠ caller →
      retrieveFile s F caller = .error .unauthorizedAccess ∧
      observableEvents (retrieveFile s F caller) = []) := by
  refine ⟨?_, ?_, ?_⟩
  · intro hnex
    simp [retrieveFile, hnex]
  · intro hex howner
    simp [retrieveFile, hex, howner]
  · intro hex howner
    have herr : retrieveFile s F caller = .error .unauthorizedAccess := by
      simp [retrieveFile, hex, howner]
    exact ⟨herr, by simp [observableEvents, herr]⟩

/-- Witness for the amended C9 at concrete inputs: the owner call succeeds
with the Retrieved notification, the non-owner call fails Unauthorized with
an empty observable log. -/
theorem C9_retrieve_access_control_witness :
    retrieveFile regDemoState 5 7 = .ok ([1], [.fileDownloaded 5 7]) ∧
    retrieveFile regDemoState 5 8 = .error .unauthorizedAccess ∧
    observableEvents (retrieveFile regDemoState 5 8) = [] :=
  ⟨(C9_retrieve_access_control regDemoState 5 7).2.1 (by decide) (by decide),
   ((C9_retrieve_access_control regDemoState 5 8).2.2 (by decide) (by decide)).1,
   ((C9_retrieve_access_control regDemoState 5 8).2.2 (by decide) (by decide)).2⟩

/-! ## CIDMap: the persistent fingerprint to locator mapping

Translated from loadIPFSMapping / saveIPFSMapping in the blockchain
interaction module.  The filesystem is an association list from path to
file content; reads, writes, renames and copies are modelled on their
success behavior, and each call also reports the list of mutating
operations it performed, which makes the write-temp-then-rename discipline
of the source visible to the theorems.  A JS Map in insertion order is an
association list updated in place.  JSON texts are modelled by an
executable parser for flat objects whose values are strings or numeric
tokens - the shape the module reads and writes; any other text fails the
parse, landing in the same catch branch as a JSON.parse throw.  The
stringifier emits the two-space pretty-printed form of JSON.stringify,
with no escaping (keys are hex fingerprints, values are CID strings).
-/

/-- Mapping update on a string-keyed association list, preserving the
position of an existing key as a JS Map or object does. -/
def setAssocS {β : Type} (m : List (String × β)) (k : String) (v : β) :
    List (String × β) :=
  match m with
  | [] => [(k, v)]
  | (k2, v2) :: rest => if k2 = k then (k, v) :: rest else (k2, v2) :: setAssocS rest k v

/-- Removal of a key from a string-keyed association list. -/
def removeAssocS {β : Type} (m : List (String × β)) (k : String) : List (String × β) :=
  m.filter (fun e => e.1 != k)

structure FS where
  files : List (String × String)
deriving DecidableEq

/-- Mutating filesystem operations, recorded so theorems can speak about
how the primary mapping file is touched. -/
inductive FsOp where
  | fsWrite (path : String)
  | fsRename (src dst : String)
  | fsCopy (src dst : String)
deriving DecidableEq

def FS.read (fs : FS) (p : String) : Option String :=
  fs.files.lookup p

def FS.existsFile (fs : FS) (p : String) : Bool :=
  (fs.read p).isSome

def FS.write (fs : FS) (p d : String) : FS :=
  ⟨setAssocS fs.files p d⟩

/-- Success behavior of renameSync: the source entry moves to the
destination path atomically. -/
def FS.rename (fs : FS) (src dst : String) : FS :=
  match fs.read src with
  | some d => ⟨setAssocS (removeAssocS fs.files src) dst d⟩
  | none => fs

/-- Success behavior of copyFileSync. -/
def FS.copyFile (fs : FS) (src dst : String) : FS :=
  match fs.read src with
  | some d => ⟨setAssocS fs.files dst d⟩
  | none => fs

/-- JSON scalar values the mapping parser distinguishes: strings, and
other scalar tokens (numbers), which the load loop later skips as
invalid entries. -/
inductive JVal where
  | jstr (s : List Char)
  | jnum (s : List Char)
deriving DecidableEq

def quoteCh : Char := Char.ofNat 34

def openBraceCh : Char := Char.ofNat 123

def closeBraceCh : Char := Char.ofNat 125

def isWsCh (c : Char) : Bool :=
  c = ' ' || c = '\n' || c = '\t' || c = '\r'

def skipWs (cs : List Char) : List Char :=
  cs.dropWhile isWsCh

def isNumCh (c : Char) : Bool :=
  (48 ≤ c.toNat && c.toNat ≤ 57) || c = '-' || c = '+' || c = '.' ||
  c = 'e' || c = 'E'

/-- Parse a quoted string literal without escapes, returning content and
remaining input. -/
def parseStringLit (cs : List Char) : Option (List Char × List Char) :=
  match cs with
  | [] => none
  | c :: rest =>
      if c = quoteCh then
        let content := rest.takeWhile (fun c2 => c2 != quoteCh)
        match rest.dropWhile (fun c2 => c2 != quoteCh) with
        | c2 :: rest2 => if c2 = quoteCh then some (content, rest2) else none
        | [] => none
      else none

/-- Parse one scalar value: a string literal or a numeric token. -/
def parseScalar (cs : List Char) : Option (JVal × List Char) :=
  let cs2 := skipWs cs
  match parseStringLit cs2 with
  | some p => some (.jstr p.1, p.2)
  | none =>
      let tok := cs2.takeWhile isNumCh
      if tok.isEmpty then none else some (.jnum tok, cs2.dropWhile isNumCh)

/-- Loop over the comma-separated key-value entries of an object body,
ending at the closing brace which must be followed only by whitespace. -/
def parseEntries (fuel : Nat) (cs : List Char) (acc : List (List Char × JVal)) :
    Option (List (List Char × JVal)) :=
  match fuel with
  | 0 => none
  | fuel2 + 1 =>
      match parseStringLit (skipWs cs) with
      | none => none
      | some (key, rest) =>
          match skipWs rest with
          | ':' :: rest2 =>
              match parseScalar rest2 with
              | none => none
              | some (v, rest3) =>
                  match skipWs rest3 with
                  | ',' :: rest4 => parseEntries fuel2 rest4 (acc ++ [(key, v)])
                  | c :: rest4 =>
                      if c = closeBraceCh ∧ (skipWs rest4).isEmpty then
                        some (acc ++ [(key, v)])
                      else none
                  | [] => none
          | _ => none

/-- Parse a whole text as a flat JSON object; any text JSON.parse rejects,
and any JSON value that is not an object of scalars, yields none (the
source throws on both and handles them in one catch). -/
def jsonParseObj (cs : List Char) : Option (List (List Char × JVal)) :=
  match skipWs cs with
  | [] => none
  | c :: rest =>
      if c = openBraceCh then
        match skipWs rest with
        | c2 :: rest2 =>
            if c2 = closeBraceCh then
              if (skipWs rest2).isEmpty then some [] else none
            else parseEntries (rest.length + 1) rest []
        | [] => none
      else none

/-- Duplicate keys collapse as in JSON.parse: the last occurrence wins, at
the position of the first. -/
def objOfRaw (raw : List (List Char × JVal)) : List (String × JVal) :=
  raw.foldl (fun o e => setAssocS o (String.mk e.1) e.2) []

/-- The entry validation loop of loadIPFSMapping: keep entries whose key
and value are non-empty strings, skip the rest. -/
def validEntries (raw : List (List Char × JVal)) : List (String × String) :=
  (objOfRaw raw).foldl
    (fun m e =>
      match e.2 with
      | .jstr v => if 0 < e.1.length ∧ 0 < v.length then setAssocS m e.1 (String.mk v) else m
      | .jnum _ => m) []

/-- The emptiness test of the source (trimmed length zero). -/
def trimmedEmpty (s : String) : Bool :=
  (skipWs s.toList).isEmpty

/-- Backup name for a corrupted mapping file with the current epoch
timestamp. -/
def backupName (path : String) (now : Nat) : String :=
  path ++ ".corrupted." ++ toString now

/-- Embedding of loadIPFSMapping: no configured file or a missing file
yields an empty map; an empty file yields an empty map with a warning; a
file that fails to parse yields an empty map after copying the corrupt
content to a timestamped backup; otherwise the validated entries load. -/
def loadIPFSMapping (mappingFile : Option String) (fs : FS) (now : Nat) :
    List (String × String) × FS × List FsOp :=
  match mappingFile with
  | none => ([], fs, [])
  | some path =>
      match fs.read path with
      | none => ([], fs, [])
      | some data =>
          if trimmedEmpty data then ([], fs, [])
          else
            match jsonParseObj data.toList with
            | some raw => (validEntries raw, fs, [])
            | none =>
                ([], fs.copyFile path (backupName path now),
                 [.fsCopy path (backupName path now)])

/-- Two-space pretty-printed serialization of a flat string map, as
JSON.stringify produces for the mapping object. -/
def stringifyObj (m : List (String × String)) : String :=
  match m with
  | [] => "\x7b\x7d"
  | _ =>
      "\x7b\n" ++
        String.intercalate ",\n"
          (m.map (fun e => "  \"" ++ e.1 ++ "\": \"" ++ e.2 ++ "\"")) ++
      "\n\x7d"

/-- The reload-and-merge step of saveIPFSMapping: every disk entry is
written over the in-memory map, so a conflicting disk entry wins. -/
def mergeInto (mapping disk : List (String × String)) : List (String × String) :=
  disk.foldl (fun m e => setAssocS m e.1 e.2) mapping

/-- Embedding of saveIPFSMapping: reload the on-disk state, merge it over
the in-memory map (disk wins on conflicts), serialize, write to the
temporary path, and atomically rename onto the primary path. -/
def saveIPFSMapping (mappingFile : Option String) (mapping : List (String × String))
    (fs : FS) (now : Nat) : FS × List FsOp :=
  match mappingFile with
  | none => (fs, [])
  | some path =>
      let loaded := loadIPFSMapping (some path) fs now
      let merged := mergeInto mapping loaded.1
      let jsonData := stringifyObj merged
      let tmp := path ++ ".tmp"
      let fs2 := (loaded.2.1).write tmp jsonData
      (fs2.rename tmp path,
       loaded.2.2 ++ [.fsWrite tmp, .fsRename tmp path])

theorem lookup_setAssocS {β : Type} (m : List (String × β)) (k : String) (v : β)
    (k2 : String) :
    (setAssocS m k v).lookup k2 = if k2 = k then some v else m.lookup k2 := by
  induction m with
  | nil =>
      by_cases h : k2 = k
      · simp [setAssocS, List.lookup, h]
      · have hb : (k2 == k) = false := beq_eq_false_iff_ne.mpr h
        simp [setAssocS, List.lookup, hb, h]
  | cons p rest ih =>
      obtain ⟨pk, pv⟩ := p
      by_cases hpk : pk = k
      · subst hpk
        by_cases h : k2 = pk
        · simp [setAssocS, List.lookup, h]
        · have hb : (k2 == pk) = false := beq_eq_false_iff_ne.mpr h
          simp [setAssocS, List.lookup, hb, h]
      · by_cases h : k2 = pk
        · subst h
          have hk : k2 ≠ k := fun hh => hpk hh
          simp [setAssocS, hpk, List.lookup, hk]
        · have hb : (k2 == pk) = false := beq_eq_false_iff_ne.mpr h
          simp [setAssocS, hpk, List.lookup, hb, ih]

theorem lookup_removeAssocS_self {β : Type} (m : List (String × β)) (k : String) :
    (removeAssocS m k).lookup k = none := by
  induction m with
  | nil => rfl
  | cons p rest ih =>
      obtain ⟨pk, pv⟩ := p
      by_cases h : pk = k
      · simp [removeAssocS, h] at ih ⊢
        exact ih
      · have hb : (pk != k) = true := by simp [h]
        have hb2 : (k == pk) = false := beq_eq_false_iff_ne.mpr (fun hh => h hh.symm)
        simp [removeAssocS, List.filter, hb, List.lookup, hb2] at ih ⊢
        exact ih

theorem lookup_none_of_not_mem_keys {β : Type} (m : List (String × β)) (k : String)
    (h : k ∉ m.map Prod.fst) : m.lookup k = none := by
  induction m with
  | nil => rfl
  | cons p rest ih =>
      obtain ⟨pk, pv⟩ := p
      simp only [List.map_cons, List.mem_cons] at h
      push_neg at h
      have hb : (k == pk) = false := beq_eq_false_iff_ne.mpr h.1
      simp only [List.lookup, hb]
      exact ih h.2

theorem lookup_mergeInto (m D : List (String × String)) (k : String)
    (hD : (D.map Prod.fst).Nodup) :
    (mergeInto m D).lookup k
      = match D.lookup k with
        | some v => some v
        | none => m.lookup k := by
  induction D generalizing m with
  | nil => simp [mergeInto, List.lookup]
  | cons d D2 ih =>
      obtain ⟨dk, dv⟩ := d
      simp only [List.map_cons, List.nodup_cons] at hD
      have hstep : mergeInto m ((dk, dv) :: D2) = mergeInto (setAssocS m dk dv) D2 := rfl
      rw [hstep, ih (setAssocS m dk dv) hD.2]
      by_cases hk : k = dk
      · subst hk
        have hD2 : D2.lookup k = none := lookup_none_of_not_mem_keys D2 k hD.1
        simp [List.lookup, hD2, lookup_setAssocS]
      · have hb : (k == dk) = false := beq_eq_false_iff_ne.mpr hk
        cases hD2 : D2.lookup k <;> simp [List.lookup, hb, hD2, lookup_setAssocS, hk]

/-- Writing a fresh temporary file and renaming it onto a distinct primary
path leaves the written content at the primary path and no temporary
behind. -/
theorem write_rename_read (fs : FS) (tmp path J : String) (htmp : tmp ≠ path) :
    ((fs.write tmp J).rename tmp path).read path = some J ∧
    ((fs.write tmp J).rename tmp path).read tmp = none := by
  have hlookupW : List.lookup tmp (fs.write tmp J).files = some J := by
    show List.lookup tmp (setAssocS fs.files tmp J) = some J
    rw [lookup_setAssocS]
    simp
  have hren : (fs.write tmp J).rename tmp path
      = ⟨setAssocS (removeAssocS (setAssocS fs.files tmp J) tmp) path J⟩ := by
    unfold FS.rename FS.read
    rw [hlookupW]
    rfl
  constructor
  · rw [hren]
    show List.lookup path (setAssocS (removeAssocS (setAssocS fs.files tmp J) tmp) path J)
      = some J
    rw [lookup_setAssocS]
    simp
  · rw [hren]
    show List.lookup tmp (setAssocS (removeAssocS (setAssocS fs.files tmp J) tmp) path J)
      = none
    rw [lookup_setAssocS]
    simp [htmp, lookup_removeAssocS_self]

/-! ## Claims about the CIDMap -/

/-- Claim C7.  A configured backing file whose content fails to parse
yields an empty map - the load returns instead of throwing - and the
original bytes survive under the timestamped corrupted-backup name; a
missing or an empty (all-whitespace) backing file yields an empty map with
no side effect. -/
theorem C7_load_corruption_recovery (path : String) (fs : FS) (now : Nat) :
    (∀ data, fs.read path = some data → trimmedEmpty data = false →
      jsonParseObj data.toList = none →
      loadIPFSMapping (some path) fs now
        = ([], fs.copyFile path (backupName path now),
           [.fsCopy path (backupName path now)]) ∧
      (fs.copyFile path (backupName path now)).read (backupName path now) = some data) ∧
    (fs.read path = none → loadIPFSMapping (some path) fs now = ([], fs, [])) ∧
    (∀ data, fs.read path = some data → trimmedEmpty data = true →
      loadIPFSMapping (some path) fs now = ([], fs, [])) := by
  refine ⟨?_, ?_, ?_⟩
  · intro data hread hne hparse
    have hparse2 : jsonParseObj data.data = none := hparse
    have hread2 : List.lookup path fs.files = some data := hread
    constructor
    · simp [loadIPFSMapping, hread, hne, hparse2]
    · simp [FS.copyFile, FS.read, hread2, lookup_setAssocS]
  · intro hread
    simp [loadIPFSMapping, hread]
  · intro data hread hempty
    simp [loadIPFSMapping, hread, hempty]

/-- Filesystem holding a backing file with unparseable content. -/
def corruptFS : FS := ⟨[("mapping.json", "not valid data")]⟩

/-- Witness for C7 at a concrete input: loading the bytes of the phrase
not valid data returns the empty map and copies the original bytes to the
timestamped backup. -/
theorem C7_load_corruption_recovery_witness :
    loadIPFSMapping (some "mapping.json") corruptFS 99
      = ([], corruptFS.copyFile "mapping.json" (backupName "mapping.json" 99),
         [.fsCopy "mapping.json" (backupName "mapping.json" 99)]) ∧
    (corruptFS.copyFile "mapping.json" (backupName "mapping.json" 99)).read
        (backupName "mapping.json" 99) = some "not valid data" :=
  (C7_load_corruption_recovery "mapping.json" corruptFS 99).1 "not valid data"
    (by decide) (by decide) (by decide)

/-- Claim C8.  When the on-disk state loads cleanly, saveIPFSMapping
writes the serialization of the merge in which a disk entry wins over a
conflicting in-memory entry while fingerprints only in updates are kept,
and the primary file is replaced only through the write-temporary-then-
rename pair, never written directly. -/
theorem C8_save_merge_disk_wins (path : String) (updates D : List (String × String))
    (fs : FS) (now : Nat)
    (hload : loadIPFSMapping (some path) fs now = (D, fs, []))
    (hD : (D.map Prod.fst).Nodup) :
    (saveIPFSMapping (some path) updates fs now).1.read path
        = some (stringifyObj (mergeInto updates D)) ∧
    (saveIPFSMapping (some path) updates fs now).1.read (path ++ ".tmp") = none ∧
    (saveIPFSMapping (some path) updates fs now).2
        = [.fsWrite (path ++ ".tmp"), .fsRename (path ++ ".tmp") path] ∧
    (∀ k, (mergeInto updates D).lookup k
        = match D.lookup k with
          | some v => some v
          | none => updates.lookup k) := by
  have htmp : path ++ ".tmp" ≠ path := by
    intro h
    have hlen := congrArg String.length h
    rw [String.length_append] at hlen
    have h4 : (".tmp" : String).length = 4 := rfl
    omega
  have hsave : saveIPFSMapping (some path) updates fs now
      = ((FS.write fs (path ++ ".tmp") (stringifyObj (mergeInto updates D))).rename
          (path ++ ".tmp") path,
         [.fsWrite (path ++ ".tmp"), .fsRename (path ++ ".tmp") path]) := by
    simp only [saveIPFSMapping, hload, List.nil_append]
  refine ⟨?_, ?_, ?_, ?_⟩
  · rw [hsave]
    exact (write_rename_read fs (path ++ ".tmp") path _ htmp).1
  · rw [hsave]
    exact (write_rename_read fs (path ++ ".tmp") path _ htmp).2
  · rw [hsave]
  · intro k
    exact lookup_mergeInto updates D k hD

/-- Filesystem holding a backing file with one parseable entry. -/
def saveDemoFS : FS := ⟨[("m.json", "\x7b\"a\": \"9\"\x7d")]⟩

/-- Witness for C8 at concrete inputs: the disk entry for key a overrides
the in-memory value 1 while the in-memory-only key b is kept, and the
primary path receives the serialized merge through the temp-then-rename
pair. -/
theorem C8_save_merge_disk_wins_witness :
    (saveIPFSMapping (some "m.json") [("a", "1"), ("b", "2")] saveDemoFS 7).1.read "m.json"
        = some (stringifyObj (mergeInto [("a", "1"), ("b", "2")] [("a", "9")])) ∧
    (saveIPFSMapping (some "m.json") [("a", "1"), ("b", "2")] saveDemoFS 7).1.read
        ("m.json" ++ ".tmp") = none ∧
    (saveIPFSMapping (some "m.json") [("a", "1"), ("b", "2")] saveDemoFS 7).2
        = [.fsWrite ("m.json" ++ ".tmp"), .fsRename ("m.json" ++ ".tmp") "m.json"] ∧
    (∀ k, (mergeInto [("a", "1"), ("b", "2")] [("a", "9")]).lookup k
        = match ([("a", "9")] : List (String × String)).lookup k with
          | some v => some v
          | none => ([("a", "1"), ("b", "2")] : List (String × String)).lookup k) :=
  C8_save_merge_disk_wins "m.json" [("a", "1"), ("b", "2")] [("a", "9")] saveDemoFS 7
    (by decide) (by decide)

/-! ## Orchestrator: uploadFileToBlockchain / downloadFileFromBlockchain

Translated from the blockchain interaction module.  The external
collaborators (parameter validation, filesystem, entropy source, IPFS
client, web3 account and contract calls) are oracles: an environment
record fixes the outcome of each collaborator call, and the functions are
the sequential control flow of the source over those outcomes.  The local
symmetricKey variable is tracked by a key ledger recording whether a key
buffer was materialised in the call, whether the variable still references
it, and how many times the buffer was overwritten with zeros; each
secureZero call site of the source maps to a ledger operation.  Log calls
are effect-free, and saveIPFSMapping never throws (it catches internally),
matching the source.
-/

structure KeyState where
  created : Bool
  live : Bool
  zeroed : Nat
deriving DecidableEq

/-- Ledger state before any key exists. -/
def KeyState.init : KeyState := ⟨false, false, 0⟩

/-- The generateSymmetricKey call: a fresh buffer, referenced by the
variable, not yet zeroed. -/
def KeyState.create (ks : KeyState) : KeyState := ⟨true, true, ks.zeroed⟩

/-- The source pattern secureZero(symmetricKey) followed by nulling the
variable: one overwrite when the variable holds the buffer, a no-op on a
null variable. -/
def KeyState.zeroNull (ks : KeyState) : KeyState :=
  if ks.live then ⟨ks.created, false, ks.zeroed + 1⟩ else ks

/-- The guarded cleanup of the catch clauses: zero the buffer only when
the variable still references one. -/
def KeyState.zeroGuard (ks : KeyState) : KeyState :=
  if ks.live then ⟨ks.created, ks.live, ks.zeroed + 1⟩ else ks

/-- An error escaping the main try block: the outer catch runs its guarded
zeroing and rethrows. -/
def throwOut (ks : KeyState) (e : String) : Except String Unit × KeyState :=
  (.error e, ks.zeroGuard)

def MAX_FILE_SIZE : Nat := 100 * 1024 * 1024

/-- Outcome of the wrap branch when a recipient public key is supplied:
its PEM shape check and the wrapKeyForRecipient call. -/
structure RecipientKeySpec where
  pemFormat : Bool
  wrapError : Option String
deriving DecidableEq

/-- Oracle outcomes for one uploadFileToBlockchain call, one field per
collaborator interaction in source order. -/
structure UploadEnv where
  validationError : Option String
  fileFound : Bool
  fileSize : Nat
  readError : Option String
  keygenError : Option String
  encryptError : Option String
  ipfsResult : Except String String
  ipfsHashValid : Bool
  fileHashValid : Bool
  recipientKey : Option RecipientKeySpec
  plainKeyTooLarge : Bool
  accountError : Option String
  balanceCheckError : Option String
  walletMissing : Bool
  txResult : Except String String

/-- Tail of the upload after the key has been zeroed and nulled (the
source zeroes right after producing the wrapped key, before any account or
transaction work). -/
def uploadAfterKeyZero (env : UploadEnv) (ks : KeyState) : Except String Unit × KeyState :=
  match env.accountError with
  | some m => throwOut ks m
  | none =>
      match env.balanceCheckError with
      | some m => throwOut ks m
      | none =>
          if env.walletMissing then
            throwOut ks "Account not found in web3 wallet. Cannot sign transaction."
          else
            match env.txResult with
            | .error m => throwOut ks m
            | .ok _ => (.ok (), ks)

/-- Embedding of uploadFileToBlockchain over the oracle outcomes. -/
def uploadFileToBlockchain (env : UploadEnv) : Except String Unit × KeyState :=
  let ks := KeyState.init
  match env.validationError with
  | some m => throwOut ks ("Validation failed: " ++ m)
  | none =>
  if env.fileFound = false then throwOut ks "File not found"
  else if env.fileSize > MAX_FILE_SIZE then throwOut ks "File too large"
  else if env.fileSize = 0 then throwOut ks "Cannot upload empty file"
  else
  match env.readError with
  | some m => throwOut ks m
  | none =>
  match env.keygenError with
  | some m => throwOut ks ("Failed to generate symmetric key: " ++ m)
  | none =>
  let ks := ks.create
  match env.encryptError with
  | some m => throwOut ks m
  | none =>
  match env.ipfsResult with
  | .error m => throwOut ks m
  | .ok _ =>
  if env.ipfsHashValid = false then
    throwOut ks.zeroNull "Invalid IPFS hash format"
  else if env.fileHashValid = false then
    throwOut ks.zeroNull "Invalid fileHash generated from IPFS hash"
  else
  match env.recipientKey with
  | some rk =>
      if rk.pemFormat = false then
        throwOut ks.zeroNull "Recipient public key must be in PEM format"
      else
        match rk.wrapError with
        | some m => throwOut ks.zeroNull m
        | none => uploadAfterKeyZero env ks.zeroNull
  | none =>
      if env.plainKeyTooLarge then
        throwOut ks.zeroNull "Wrapped key exceeds maximum size"
      else uploadAfterKeyZero env ks.zeroNull

/-- Oracle outcomes for one downloadFileFromBlockchain call, one field per
collaborator interaction in source order. -/
structure DownloadEnv where
  validationError : Option String
  hashFormatOk : Bool
  fileFound : Bool
  keyBlobError : Option String
  recipientPrivateKey : Bool
  unwrapError : Option String
  parseOk : Bool
  fieldsPresent : Bool
  keyLen32 : Bool
  mappingConfigured : Bool
  mappingFileOnDisk : Bool
  globalHit : Bool
  reloadHit : Bool
  locatorValid : Bool
  ipfsError : Option String
  decryptOk : Bool
  writeError : Option String
deriving DecidableEq

/-- An error raised inside the inner key-resolution try block: its catch
zeroes and nulls a live key, rethrows, and the outer catch then finds the
variable null. -/
def rethrowInner (ks : KeyState) (e : String) : Except String Unit × KeyState :=
  throwOut ks.zeroNull e

/-- The PersistenceLost message of the source, which depends on whether a
persistent mapping file is configured. -/
def persistenceLostMsg (configured : Bool) : String :=
  if configured then
    "IPFS hash not found in mapping. File may be permanently inaccessible if mapping was lost."
  else
    "IPFS hash not found. Configure IPFS_MAPPING_FILE environment variable for persistent storage to prevent data loss on restart."

/-- Tail of the download after the key, iv and authTag have been resolved
on the plaintext-metadata path: mapping lookup, locator validation, IPFS
fetch, decryption, write-out. -/
def downloadAfterKey (env : DownloadEnv) (ks : KeyState) : Except String Unit × KeyState :=
  if (env.globalHit || (env.mappingConfigured && env.mappingFileOnDisk && env.reloadHit))
      = false then
    throwOut ks.zeroNull (persistenceLostMsg env.mappingConfigured)
  else if env.locatorValid = false then
    throwOut ks.zeroNull "Invalid IPFS hash format"
  else
    match env.ipfsError with
    | some m => throwOut ks m
    | none =>
        if env.decryptOk = false then
          throwOut ks.zeroNull "Failed to decrypt file. Invalid key or corrupted data."
        else
          let ks := ks.zeroNull
          match env.writeError with
          | some m => throwOut ks m
          | none => (.ok (), ks)

/-- Embedding of downloadFileFromBlockchain over the oracle outcomes. -/
def downloadFileFromBlockchain (env : DownloadEnv) : Except String Unit × KeyState :=
  let ks := KeyState.init
  match env.validationError with
  | some m => throwOut ks ("Validation failed: " ++ m)
  | none =>
  if env.hashFormatOk = false then throwOut ks "Invalid fileHash format"
  else if env.fileFound = false then throwOut ks "File not found on blockchain"
  else
  match env.keyBlobError with
  | some m => throwOut ks m
  | none =>
  if env.recipientPrivateKey then
    match env.unwrapError with
    | some m => rethrowInner ks m
    | none =>
        let ks := ks.create
        rethrowInner ks.zeroNull
          "Key unwrapping with recipient private key requires IV/authTag storage - not yet implemented"
  else
    if env.parseOk = false then rethrowInner ks "Invalid encrypted key format"
    else if env.fieldsPresent = false then
      rethrowInner ks "Invalid encrypted key format: missing required fields"
    else
      let ks := ks.create
      if env.keyLen32 = false then
        rethrowInner ks.zeroNull "Invalid encrypted key format: incorrect key length"
      else downloadAfterKey env ks

/-! ## Claims about the orchestrator -/

/-- On every path of an upload in which a key buffer was materialised, the
buffer is overwritten with zeros exactly once by the time the call
finishes. -/
theorem upload_created_zeroed (env : UploadEnv) :
    (uploadFileToBlockchain env).2.created = true →
    (uploadFileToBlockchain env).2.zeroed = 1 := by
  unfold uploadFileToBlockchain uploadAfterKeyZero
  repeat' split
  all_goals simp [throwOut, KeyState.init, KeyState.create, KeyState.zeroNull,
    KeyState.zeroGuard]

/-- On every path of a download in which a key buffer was materialised,
the buffer is overwritten with zeros exactly once by the time the call
finishes. -/
theorem download_created_zeroed (env : DownloadEnv) :
    (downloadFileFromBlockchain env).2.created = true →
    (downloadFileFromBlockchain env).2.zeroed = 1 := by
  unfold downloadFileFromBlockchain downloadAfterKey rethrowInner
  repeat' split
  all_goals simp [throwOut, KeyState.init, KeyState.create, KeyState.zeroNull,
    KeyState.zeroGuard]

/-- Claim C3.  In every upload or download execution in which a
SymmetricKey buffer was created, every error outcome leaves the buffer
zeroed exactly once before the error reaches the caller. -/
theorem C3_error_paths_zero_key :
    (∀ (env : UploadEnv) (e : String), (uploadFileToBlockchain env).1 = .error e →
      (uploadFileToBlockchain env).2.created = true →
      (uploadFileToBlockchain env).2.zeroed = 1) ∧
    (∀ (env : DownloadEnv) (e : String), (downloadFileFromBlockchain env).1 = .error e →
      (downloadFileFromBlockchain env).2.created = true →
      (downloadFileFromBlockchain env).2.zeroed = 1) :=
  ⟨fun env _ _ hc => upload_created_zeroed env hc,
   fun env _ _ hc => download_created_zeroed env hc⟩

/-- Upload environment failing IPFS hash validation after the key was
generated. -/
def uploadEnvDemo : UploadEnv :=
  ⟨none, true, 5, none, none, none, .ok "QmDemo", false, true, none, false,
   none, none, false, .ok "0xdemo"⟩

/-- Witness for C3 at a concrete input: an upload failing IPFS hash
validation after key generation errors out with the key buffer zeroed
exactly once. -/
theorem C3_error_paths_zero_key_witness :
    (uploadFileToBlockchain uploadEnvDemo).1 = .error "Invalid IPFS hash format" ∧
    (uploadFileToBlockchain uploadEnvDemo).2.created = true ∧
    (uploadFileToBlockchain uploadEnvDemo).2.zeroed = 1 :=
  ⟨rfl, rfl, C3_error_paths_zero_key.1 uploadEnvDemo "Invalid IPFS hash format" rfl rfl⟩

/-- Claim C5.  A download reaching the mapping lookup with a record on
chain but no CIDMap entry fails with the PersistenceLost error - distinct
from the NotFound error - which propagates to the caller unchanged, with
the already materialised key buffer zeroed exactly once. -/
theorem C5_persistence_lost (env : DownloadEnv)
    (h1 : env.validationError = none) (h2 : env.hashFormatOk = true)
    (h3 : env.fileFound = true) (h4 : env.keyBlobError = none)
    (h5 : env.recipientPrivateKey = false) (h6 : env.parseOk = true)
    (h7 : env.fieldsPresent = true) (h8 : env.keyLen32 = true)
    (h9 : (env.globalHit
      || (env.mappingConfigured && env.mappingFileOnDisk && env.reloadHit)) = false) :
    downloadFileFromBlockchain env
      = (.error (persistenceLostMsg env.mappingConfigured), ⟨true, false, 1⟩) ∧
    persistenceLostMsg env.mappingConfigured ≠ "File not found on blockchain" := by
  constructor
  · simp [downloadFileFromBlockchain, downloadAfterKey, h1, h2, h3, h4, h5, h6, h7,
      h8, h9, rethrowInner, throwOut, KeyState.init, KeyState.create,
      KeyState.zeroNull, KeyState.zeroGuard]
  · unfold persistenceLostMsg
    split <;> decide

/-- Download environment with an on-chain record, a parseable plaintext
key blob, and a fingerprint absent from both the in-memory map and the
configured backing file. -/
def persistDemoEnv : DownloadEnv :=
  ⟨none, true, true, none, false, none, true, true, true, true, true, false,
   false, true, none, true, none⟩

/-- Witness for C5 at a concrete input. -/
theorem C5_persistence_lost_witness :
    downloadFileFromBlockchain persistDemoEnv
      = (.error (persistenceLostMsg true), ⟨true, false, 1⟩) ∧
    persistenceLostMsg true ≠ "File not found on blockchain" :=
  C5_persistence_lost persistDemoEnv rfl rfl rfl rfl rfl rfl rfl rfl rfl

/-- Claim C10.  A download invoked with a recipient private key never
returns content: every outcome is an error, any materialised key buffer is
zeroed exactly once, and when the unwrap itself succeeds the call zeroes
the unwrapped key and raises the not-yet-implemented error. -/
theorem C10_wrapped_key_retrieval_always_fails (env : DownloadEnv)
    (hrk : env.recipientPrivateKey = true) :
    (∃ e, (downloadFileFromBlockchain env).1 = .error e) ∧
    ((downloadFileFromBlockchain env).2.created = true →
      (downloadFileFromBlockchain env).2.zeroed = 1) ∧
    (env.validationError = none → env.hashFormatOk = true → env.fileFound = true →
      env.keyBlobError = none → env.unwrapError = none →
      downloadFileFromBlockchain env
        = (.error "Key unwrapping with recipient private key requires IV/authTag storage - not yet implemented",
           ⟨true, false, 1⟩)) := by
  refine ⟨?_, fun hc => download_created_zeroed env hc, ?_⟩
  · unfold downloadFileFromBlockchain
    simp only [hrk]
    repeat' split
    all_goals first
      | exact ⟨_, rfl⟩
      | simp_all
  · intro h1 h2 h3 h4 h5
    simp [downloadFileFromBlockchain, h1, h2, h3, h4, h5, hrk, rethrowInner,
      throwOut, KeyState.init, KeyState.create, KeyState.zeroNull, KeyState.zeroGuard]

/-- Download environment carrying a recipient private key whose unwrap
succeeds, every collaborator healthy. -/
def wrappedDemoEnv : DownloadEnv :=
  ⟨none, true, true, none, true, none, true, true, true, true, true, true,
   true, true, none, true, none⟩

/-- Witness for C10 at a concrete input: with every collaborator healthy
the wrapped-key download still fails with the not-yet-implemented error
and a zeroed key. -/
theorem C10_wrapped_key_retrieval_always_fails_witness :
    downloadFileFromBlockchain wrappedDemoEnv
      = (.error "Key unwrapping with recipient private key requires IV/authTag storage - not yet implemented",
         ⟨true, false, 1⟩) :=
  (C10_wrapped_key_retrieval_always_fails wrappedDemoEnv rfl).2.2 rfl rfl rfl rfl rfl

end DecentraFile
